import Mathlib

/-!
Verification development for the RmlUi styling, bitmap-font and
scroll-controller sources.

Covered source files:
- src/Source/Core/ScrollController.cpp
- src/Source/Core/BitmapFont/FontFaceHandle.cpp
- src/Include/RmlUi/Core/StyleSheet.h (declarations only; the StyleSheet
  implementation file is not among the sources, so those operations are
  modelled from the specification, as marked on each definition).
-/

namespace RmlUi

/-! ## ScrollController (src/Source/Core/ScrollController.cpp)

Real-valued quantities (C++ float) are modelled as rationals.  Every
operation the proved properties depend on (comparison, min, max, the
clamping in UpdateSmoothscroll, the deadzone test and the sign of the
signed-square product) is exact in floating point as well, being pure
order and sign reasoning in an ordered field. -/

/-- AUTOSCROLL_SPEED_FACTOR = 0.09f (ScrollController.cpp line 37). -/
def AUTOSCROLL_SPEED_FACTOR : ℚ := 9 / 100

/-- AUTOSCROLL_DEADZONE = 10.0f, in dp (ScrollController.cpp line 38). -/
def AUTOSCROLL_DEADZONE : ℚ := 10

/-- CalculateAutoscrollVelocity (ScrollController.cpp lines 45-55): divide the
target delta by the dp-ratio, zero each component inside the deadzone, then
apply the signed-square velocity model. -/
def CalculateAutoscrollVelocity (target_delta : ℚ × ℚ) (dp_ratio : ℚ) : ℚ × ℚ :=
  let t0 : ℚ × ℚ := (target_delta.1 / dp_ratio, target_delta.2 / dp_ratio)
  let t : ℚ × ℚ :=
    (if |t0.1| < AUTOSCROLL_DEADZONE then 0 else t0.1,
     if |t0.2| < AUTOSCROLL_DEADZONE then 0 else t0.2)
  (AUTOSCROLL_SPEED_FACTOR * t.1 * |t.1|, AUTOSCROLL_SPEED_FACTOR * t.2 * |t.2|)

/-- GetAutoscrollCursor (ScrollController.cpp lines 221-244): the scroll delta
is the integer mouse position minus the autoscroll start position; the cursor
is "rmlui-scroll-idle" when the autoscroll velocity vanishes, otherwise
"rmlui-scroll" with direction suffixes chosen by the velocity signs. -/
def GetAutoscrollCursor (mouse_position autoscroll_start_position : ℤ × ℤ)
    (dp_ratio : ℚ) : String :=
  let scroll_delta : ℚ × ℚ :=
    (((mouse_position.1 - autoscroll_start_position.1 : ℤ) : ℚ),
     ((mouse_position.2 - autoscroll_start_position.2 : ℤ) : ℚ))
  let scroll_velocity := CalculateAutoscrollVelocity scroll_delta dp_ratio
  if scroll_velocity = (0, 0) then "rmlui-scroll-idle"
  else
    let r1 := "rmlui-scroll"
    let r2 :=
      if scroll_velocity.2 > 0 then r1 ++ "-up"
      else if scroll_velocity.2 < 0 then r1 ++ "-down"
      else r1
    if scroll_velocity.1 > 0 then r2 ++ "-right"
    else if scroll_velocity.1 < 0 then r2 ++ "-left"
    else r2

/-- State of the smooth-scroll controller: the target distance accumulated
from mouse-wheel input and the distance scrolled so far
(ScrollController.h fields used by UpdateSmoothscroll). -/
structure SmoothscrollState where
  smoothscroll_target_distance : ℚ × ℚ
  smoothscroll_scrolled_distance : ℚ × ℚ
  deriving DecidableEq

/-- Remaining distance to the target, computed at the top of
UpdateSmoothscroll (ScrollController.cpp line 130). -/
def targetDelta (s : SmoothscrollState) : ℚ × ℚ :=
  (s.smoothscroll_target_distance.1 - s.smoothscroll_scrolled_distance.1,
   s.smoothscroll_target_distance.2 - s.smoothscroll_scrolled_distance.2)

/-- Per-axis clamping of UpdateSmoothscroll (ScrollController.cpp lines
136-146): ensure a minimum speed of one pixel per frame and clamp to the
target to avoid overshooting. -/
def clampScrollDistance (target_delta scroll_distance : ℚ) : ℚ :=
  if target_delta > 0 then min (max scroll_distance 1) target_delta
  else if target_delta < 0 then max (min scroll_distance (-1)) target_delta
  else 0

/-- Outcome of one UpdateSmoothscroll step: the scroll distance emitted with
the scroll event, the successor state and whether Reset was invoked. -/
structure SmoothscrollStepResult where
  emitted : ℚ × ℚ
  next : SmoothscrollState
  did_reset : Bool
  deriving DecidableEq

/-- UpdateSmoothscroll (ScrollController.cpp lines 126-163).  The rounded
integration step (velocity * dt).Round() is taken as the input
raw_scroll_distance, so the theorems hold for every velocity outcome;
event_unhandled models the return value of target->DispatchEvent (true when
no element handled the scroll event, which makes the controller Reset). -/
def UpdateSmoothscroll (s : SmoothscrollState) (raw_scroll_distance : ℚ × ℚ)
    (event_unhandled : Bool) : SmoothscrollStepResult :=
  let td := targetDelta s
  let d : ℚ × ℚ :=
    (clampScrollDistance td.1 raw_scroll_distance.1,
     clampScrollDistance td.2 raw_scroll_distance.2)
  let dispatched : Bool := !(decide (d = (0, 0)))
  let s' :=
    if dispatched then
      { s with smoothscroll_scrolled_distance :=
          (s.smoothscroll_scrolled_distance.1 + d.1,
           s.smoothscroll_scrolled_distance.2 + d.2) }
    else s
  { emitted := d
    next := s'
    did_reset := (dispatched && event_unhandled) || decide (d = td) }

/-! ## BitmapFont::FontFaceHandle (src/Source/Core/BitmapFont/FontFaceHandle.cpp)

Strings handed to the charset parser are modelled through their character
lists; character codes (the C++ 16-bit word) are modelled as Nat, pixel
widths (C++ int) as Int. -/

/-- Splits a character list at every occurrence of the separator; the model
of the comma and dash splitting done by the external string utilities. -/
def splitOnChar (sep : Char) : List Char → List (List Char)
  | [] => [[]]
  | c :: cs =>
    match splitOnChar sep cs with
    | e :: es => if c = sep then [] :: e :: es else (c :: e) :: es
    | [] => if c = sep then [[], []] else [[c]]

/-- Reads a nonempty all-digit character list as a decimal number. -/
def parseNatDigits (cs : List Char) : Option Nat :=
  if cs.isEmpty then none
  else
    cs.foldl
      (fun acc c =>
        match acc with
        | none => none
        | some n => if c.isDigit then some (n * 10 + (c.toNat - 48)) else none)
      (some 0)

/-- Modelled from the spec: a unicode range of the charset specification
(UnicodeRange, whose definition is not among the sources; FontFaceHandle.cpp
lines 259-263 use its min_codepoint and max_codepoint fields). -/
structure UnicodeRange where
  min_codepoint : Nat
  max_codepoint : Nat
  deriving DecidableEq

/-- Modelled from the spec: one entry of the comma-separated charset is a
single codepoint or a dash-separated low-high pair; anything else is a bad
charset range (spec section 7, parse-level malformed input). -/
def parseCharsetEntry (entry : List Char) : Option UnicodeRange :=
  match (splitOnChar '-' entry).map parseNatDigits with
  | [some v] => some ⟨v, v⟩
  | [some lo, some hi] => if lo ≤ hi then some ⟨lo, hi⟩ else none
  | _ => none

/-- Folds the entry parser over the split charset, failing on the first
malformed entry. -/
def buildRangeList : List (List Char) → Option (List UnicodeRange)
  | [] => some []
  | e :: rest =>
    match parseCharsetEntry e, buildRangeList rest with
    | some r, some rs => some (r :: rs)
    | _, _ => none

/-- Modelled from the spec: UnicodeRange::BuildList (not among the sources)
parses the raw charset specification; it signals failure when the
specification holds a malformed range, which is the failure that
FontFaceHandle::Initialise (FontFaceHandle.cpp lines 84-88, in the sources)
handles by logging and returning false. -/
def UnicodeRange.BuildList (raw_charset : String) : Option (List UnicodeRange) :=
  buildRangeList (splitOnChar ',' raw_charset.data)

/-- Outcome of FontFaceHandle::Initialise restricted to the charset handling
the claims are about: whether it returned true, the diagnostics it logged,
the charset list built, and whether the glyph-map construction step (the
processing after the charset check, FontFaceHandle.cpp lines 90-102) ran. -/
structure InitialiseResult where
  ok : Bool
  logs : List String
  charset : List UnicodeRange
  glyph_map_built : Bool
  deriving DecidableEq

/-- FontFaceHandle::Initialise, charset path (FontFaceHandle.cpp lines
59-103): when UnicodeRange::BuildList fails, an error diagnostic naming the
charset is logged and the whole initialisation returns false; only on
success does the glyph-map and metrics processing run. -/
def FontFaceHandle.Initialise (raw_charset : String) : InitialiseResult :=
  match UnicodeRange.BuildList raw_charset with
  | none =>
    { ok := false
      logs := ["Invalid font charset " ++ raw_charset]
      charset := []
      glyph_map_built := false }
  | some cs =>
    { ok := true
      logs := []
      charset := cs
      glyph_map_built := true }

/-- FontFaceHandle::GetKerning (FontFaceHandle.cpp lines 299-307): the
kerning table lookup of the font definitions, 0 when bm_face is null.  The
external BitmapFontDefinitions object is modelled by its kerning table. -/
def FontFaceHandle.GetKerning (bm_face : Option (Nat → Nat → ℤ)) (lhs rhs : Nat) : ℤ :=
  match bm_face with
  | some bm => bm lhs rhs
  | none => 0

/-- Loop body of FontFaceHandle::GetStringWidth (FontFaceHandle.cpp lines
110-125), as a tail recursion over the string with the running width and the
prior character: characters at or beyond glyphs.size() are skipped, kerning
against the prior character is added when that character is nonzero, then
the advance of the glyph.  glyphs is modelled by the advance of each glyph
(FontGlyph::advance). -/
def getStringWidthLoop (glyphs : List ℤ) (bm_face : Option (Nat → Nat → ℤ)) :
    List Nat → Nat → ℤ → ℤ
  | [], _, width => width
  | character_code :: rest, prior_character, width =>
    if character_code < glyphs.length then
      let width1 :=
        if prior_character ≠ 0 then
          width + FontFaceHandle.GetKerning bm_face prior_character character_code
        else width
      getStringWidthLoop glyphs bm_face rest character_code (width1 + glyphs.getD character_code 0)
    else
      getStringWidthLoop glyphs bm_face rest prior_character width

/-- FontFaceHandle::GetStringWidth (FontFaceHandle.cpp lines 106-128). -/
def FontFaceHandle.GetStringWidth (glyphs : List ℤ) (bm_face : Option (Nat → Nat → ℤ))
    (string : List Nat) (prior_character : Nat) : ℤ :=
  getStringWidthLoop glyphs bm_face string prior_character 0

/-- Width characterization following the words of claim C8: each character
of the (already in-range filtered) string contributes its advance plus, when
the predecessor is nonzero, the kerning between predecessor and character;
the predecessor seeds from the prior_character argument. -/
def GetStringWidthSpec (glyphs : List ℤ) (bm_face : Option (Nat → Nat → ℤ)) :
    List Nat → Nat → ℤ
  | [], _ => 0
  | c :: rest, prev =>
    (if prev ≠ 0 then FontFaceHandle.GetKerning bm_face prev c else 0)
      + glyphs.getD c 0 + GetStringWidthSpec glyphs bm_face rest c

/-- Outcome of FontFaceHandle::GenerateString relevant to the claims: the
returned line width and the number of geometry groups generated. -/
structure GenerateStringResult where
  line_width : ℤ
  geometry_groups : Nat
  deriving DecidableEq

/-- FontFaceHandle::GenerateString (FontFaceHandle.cpp lines 141-198).  The
two RMLUI_ASSERT statements on the layer configuration index (lines 146-147)
are modelled as the none outcome; layers are modelled by ids, and each layer
recomputes the same line width over the string (lines 169-189), which is the
width computation of getStringWidthLoop with prior character 0, so the
returned line width is that of the last layer, or the initial 0 when the
configuration is empty. -/
def FontFaceHandle.GenerateString (layer_configurations : List (List Nat))
    (glyphs : List ℤ) (bm_face : Option (Nat → Nat → ℤ)) (string : List Nat)
    (layer_configuration_index : ℤ) : Option GenerateStringResult :=
  if layer_configuration_index < 0 then none
  else
    match layer_configurations[layer_configuration_index.toNat]? with
    | none => none
    | some layer_configuration =>
      some
        { line_width :=
            if layer_configuration.isEmpty then 0
            else getStringWidthLoop glyphs bm_face string 0 0
          geometry_groups := layer_configuration.length }

/-! ## StyleSheet (src/Include/RmlUi/Core/StyleSheet.h)

Only the header of StyleSheet is among the sources; every operation below is
modelled from the specification, with the shapes fixed by the declarations
of StyleSheet.h.  Property ids and property values are modelled as Nat,
selector keys as String. -/

/-- First-match association list lookup, the model of map lookup used
throughout the StyleSheet model. -/
def lookupAssoc {α : Type} [DecidableEq α] {β : Type} : List (α × β) → α → Option β
  | [], _ => none
  | (k, v) :: rest, key => if key = k then some v else lookupAssoc rest key

/-- Modelled from the spec (section 4.1): property dictionary merge where the
second dictionary overrides the first on a property-id collision. -/
def mergeProperties (pa pb : List (Nat × Nat)) : List (Nat × Nat) :=
  pa.filter (fun kv => (lookupAssoc pb kv.1).isNone) ++ pb

/-- Modelled from the spec (section 3): a StyleSheetNode is one compound
selector step carrying a specificity score, a property dictionary and the
children reached by appending a further selector step, keyed by selector
text (the StyleSheetNode implementation is not among the sources). -/
inductive StyleSheetNode : Type where
  | node (specificity : Nat) (properties : List (Nat × Nat))
      (children : List (String × StyleSheetNode))

def StyleSheetNode.specificity : StyleSheetNode → Nat
  | .node s _ _ => s

def StyleSheetNode.properties : StyleSheetNode → List (Nat × Nat)
  | .node _ p _ => p

def StyleSheetNode.children : StyleSheetNode → List (String × StyleSheetNode)
  | .node _ _ c => c

mutual

/-- Modelled from the spec (section 4.1): lock-step recursive merge of two
selector trees; where both trees define a node for the same selector step
the property dictionaries merge with the second tree overriding and the
children merge recursively; a branch present in only one tree is copied. -/
def combineNodes : StyleSheetNode → StyleSheetNode → StyleSheetNode
  | .node sa pa ca, .node sb pb cb =>
    .node (max sa sb) (mergeProperties pa pb)
      (combineChildren ca cb ++ cb.filter (fun kc => (lookupAssoc ca kc.1).isNone))

/-- Walks the first child list, merging each child against the child of the
same selector key in the second list when one exists. -/
def combineChildren :
    List (String × StyleSheetNode) → List (String × StyleSheetNode) →
    List (String × StyleSheetNode)
  | [], _ => []
  | (k, c) :: rest, cb =>
    (match lookupAssoc cb k with
     | some cbk => (k, combineNodes c cbk)
     | none => (k, c)) :: combineChildren rest cb

end

/-- Follows a selector chain (list of selector keys) down from a node. -/
def nodeAt : StyleSheetNode → List String → Option StyleSheetNode
  | n, [] => some n
  | n, key :: rest =>
    match lookupAssoc n.children key with
    | some c => nodeAt c rest
    | none => none

/-- A selector chain is present in a tree when following it reaches a node. -/
def hasChain (n : StyleSheetNode) (chain : List String) : Bool :=
  (nodeAt n chain).isSome

mutual

/-- Modelled from the spec (section 4.1): the maximum intrinsic specificity
found in a selector tree. -/
def maxSpecificity : StyleSheetNode → Nat
  | .node s _ c => max s (maxSpecificityChildren c)

def maxSpecificityChildren : List (String × StyleSheetNode) → Nat
  | [] => 0
  | (_, c) :: rest => max (maxSpecificity c) (maxSpecificityChildren rest)

end

mutual

/-- Modelled from the spec (sections 3 and 4.1): adds a specificity offset to
every node of a tree, the adjustment applied to the later-included sheet
when two sheets combine. -/
def addSpecificityOffset (d : Nat) : StyleSheetNode → StyleSheetNode
  | .node s p c => .node (s + d) p (addSpecificityOffsetChildren d c)

def addSpecificityOffsetChildren (d : Nat) :
    List (String × StyleSheetNode) → List (String × StyleSheetNode)
  | [] => []
  | (k, c) :: rest => (k, addSpecificityOffset d c) :: addSpecificityOffsetChildren d rest

end

mutual

/-- Modelled from the spec (section 4.2): the optimization pass of
BuildNodeIndexAndOptimizeProperties rewrites each stored property value
through the decorator/font-effect instancing transform (an external
collaborator, passed as the function inst); the selector structure of the
tree is untouched. -/
def optimizeNodeProperties (inst : Nat → Nat) : StyleSheetNode → StyleSheetNode
  | .node s p c =>
    .node s (p.map (fun kv => (kv.1, inst kv.2))) (optimizeChildrenProperties inst c)

def optimizeChildrenProperties (inst : Nat → Nat) :
    List (String × StyleSheetNode) → List (String × StyleSheetNode)
  | [] => []
  | (k, c) :: rest => (k, optimizeNodeProperties inst c) :: optimizeChildrenProperties inst rest

end

/-- Modelled from the spec (section 4.2): one traversal collecting, for every
edge of the tree, the reached node keyed by its selector key; with
styled_only set, only nodes with a non-empty property dictionary are
inserted (the styled_node_index), otherwise every node is (the
complete_node_index). -/
def collectNodeIndex (styled_only : Bool) :
    List (String × StyleSheetNode) → List (String × StyleSheetNode)
  | [] => []
  | (k, StyleSheetNode.node s p cc) :: rest =>
    (if styled_only && p.isEmpty then [] else [(k, StyleSheetNode.node s p cc)])
      ++ collectNodeIndex styled_only cc ++ collectNodeIndex styled_only rest

/-- Modelled from the spec (sections 2 and 3): the StyleSheet fields the
claims are about — the root node it owns, the specificity offset
(StyleSheet.h lines 114-119), and the two node indices (StyleSheet.h lines
130-133). -/
structure StyleSheet where
  root : StyleSheetNode
  specificity_offset : Nat
  styled_node_index : List (String × StyleSheetNode)
  complete_node_index : List (String × StyleSheetNode)

/-- Modelled from the spec (section 4.1): StyleSheet::CombineStyleSheet
(declared at StyleSheet.h line 86).  The later-included sheet has its
specificity raised by the current offset of the first sheet plus the maximum
intrinsic specificity of the first sheet, then the trees merge in lock-step;
the indices are not carried over and must be rebuilt. -/
def StyleSheet.CombineStyleSheet (a b : StyleSheet) : StyleSheet :=
  let d := a.specificity_offset + maxSpecificity a.root
  { root := combineNodes a.root (addSpecificityOffset d b.root)
    specificity_offset := b.specificity_offset + d
    styled_node_index := []
    complete_node_index := [] }

/-- Modelled from the spec (section 4.2):
StyleSheet::BuildNodeIndexAndOptimizeProperties (declared at StyleSheet.h
line 89) rewrites the stored decorator/font-effect property strings through
the instancing transform and rebuilds both node indices from the tree. -/
def StyleSheet.BuildNodeIndexAndOptimizeProperties (inst : Nat → Nat)
    (s : StyleSheet) : StyleSheet :=
  let r := optimizeNodeProperties inst s.root
  { root := r
    specificity_offset := s.specificity_offset
    styled_node_index := collectNodeIndex true r.children
    complete_node_index := collectNodeIndex false r.children }

/-- Modelled from the spec (section 3): one entry of the
DecoratorSpecificationMap (StyleSheet.h lines 59-64) — the decorator type
and the properties of an at-rule declared decorator. -/
structure DecoratorSpecification where
  decorator_type : String
  properties : List (Nat × Nat)

/-- Modelled from the spec (section 4.5): one instanced decorator or font
effect — the named specification it resolves to plus the raw inline
override text, whose parsing belongs to the external property grammar. -/
structure InstancedEffect where
  name : List Char
  decorator_type : String
  properties : List (Nat × Nat)
  raw_args : List Char

/-- One diagnostic message carrying the source file and line number supplied
to InstanceDecoratorsFromString / InstanceFontEffectsFromString
(StyleSheet.h lines 97-101). -/
structure LogMessage where
  source_file : String
  source_line_number : ℤ
  entry : List Char

/-- Modelled from the spec (section 4.5): one comma-separated entry is a
specification name, optionally followed by a parenthesised inline override;
the entry is malformed when the parenthesis does not close or the name is
not in the specification map. -/
def parseEffectEntry (effect_map : List (List Char × DecoratorSpecification))
    (entry : List Char) : Option InstancedEffect :=
  match splitOnChar '(' entry with
  | [name] =>
    (lookupAssoc effect_map name).map
      (fun spec => ⟨name, spec.decorator_type, spec.properties, []⟩)
  | [name, args] =>
    match args.reverse with
    | ')' :: rev_inner =>
      (lookupAssoc effect_map name).map
        (fun spec => ⟨name, spec.decorator_type, spec.properties, rev_inner.reverse⟩)
    | _ => none
  | _ => none

/-- Modelled from the spec (section 4.5): the instancing loop shared by
InstanceDecoratorsFromString and InstanceFontEffectsFromString — each entry
either instances or is skipped with one logged diagnostic carrying the
source file and line number, and the loop always continues. -/
def instanceEffectsLoop (effect_map : List (List Char × DecoratorSpecification))
    (source_file : String) (source_line_number : ℤ) :
    List (List Char) → List InstancedEffect × List LogMessage
  | [] => ([], [])
  | e :: rest =>
    let r := instanceEffectsLoop effect_map source_file source_line_number rest
    match parseEffectEntry effect_map e with
    | some d => (d :: r.1, r.2)
    | none => (r.1, ⟨source_file, source_line_number, e⟩ :: r.2)

/-- Modelled from the spec (section 4.5): StyleSheet::InstanceDecoratorsFromString
(declared at StyleSheet.h line 98), over the decorator_map of the sheet. -/
def StyleSheet.InstanceDecoratorsFromString
    (decorator_map : List (List Char × DecoratorSpecification))
    (decorator_string_value : String) (source_file : String)
    (source_line_number : ℤ) : List InstancedEffect × List LogMessage :=
  instanceEffectsLoop decorator_map source_file source_line_number
    (splitOnChar ',' decorator_string_value.data)

/-- Modelled from the spec (section 4.5): StyleSheet::InstanceFontEffectsFromString
(declared at StyleSheet.h line 101), over the font-effect registry. -/
def StyleSheet.InstanceFontEffectsFromString
    (font_effect_map : List (List Char × DecoratorSpecification))
    (font_effect_string_value : String) (source_file : String)
    (source_line_number : ℤ) : List InstancedEffect × List LogMessage :=
  instanceEffectsLoop font_effect_map source_file source_line_number
    (splitOnChar ',' font_effect_string_value.data)

/-- Modelled from the spec (section 4.3): one StyleSheetNode reference of the
matched node set of an element — its identity (the pointer into the node
tree), its specificity and its property dictionary. -/
structure MatchedNode where
  id : Nat
  specificity : Nat
  properties : List (Nat × Nat)
  deriving DecidableEq

/-- Modelled from the spec (section 4.3): the stable hash combining the
identities of the matched node set, the key of the node_cache
(StyleSheet.h lines 135-137).  The empty set hashes to 0 and a nonempty set
never does. -/
def hashNodeSet : List Nat → Nat
  | [] => 0
  | i :: rest => hashNodeSet rest * 31 + i + 1

/-- Stable insertion into a list ascending by specificity. -/
def insertBySpecificity (n : MatchedNode) : List MatchedNode → List MatchedNode
  | [] => [n]
  | m :: rest =>
    if n.specificity < m.specificity then n :: m :: rest
    else m :: insertBySpecificity n rest

/-- Stable sort of the matched nodes ascending by specificity. -/
def sortBySpecificity : List MatchedNode → List MatchedNode
  | [] => []
  | n :: rest => insertBySpecificity n (sortBySpecificity rest)

/-- Modelled from the spec (section 4.3 step 4): cascade merge of the
property dictionaries of the matched nodes in ascending specificity order,
so higher-specificity values overwrite on a property-id collision. -/
def cascadeProperties (matched : List MatchedNode) : List (Nat × Nat) :=
  (sortBySpecificity matched).foldl (fun acc n => mergeProperties acc n.properties) []

/-- Modelled from the spec (sections 2 and 4.3): an ElementDefinition — the
compiled, cascaded property set. -/
structure ElementDefinition where
  properties : List (Nat × Nat)
  deriving DecidableEq

/-- Modelled from the spec (section 9): a shared-ownership handle to an
ElementDefinition; addr models the object identity (the address of the
shared object), so two handles are to the same object exactly when their
addr agree. -/
structure DefPtr where
  addr : Nat
  defn : ElementDefinition
  deriving DecidableEq

/-- Modelled from the spec (sections 3 and 5): the mutable node_cache of a
StyleSheet (StyleSheet.h lines 135-137) — the map from node-set hashes to
shared ElementDefinition handles — together with the allocator state that
makes fresh object identities. -/
structure ElementDefinitionCacheState where
  node_cache : List (Nat × DefPtr)
  next_addr : Nat
  deriving DecidableEq

/-- Modelled from the spec (section 4.3): StyleSheet::GetElementDefinition
(declared at StyleSheet.h lines 106-108).  The element is abstracted to the
node set it matches (steps 1-2 of the algorithm, the index lookup and
ancestor verification, determine that set); the set is hashed by node
identity, a cache hit returns the stored shared handle, and a miss builds
the cascaded definition, stores it under the hash and returns it. -/
def StyleSheet.GetElementDefinition (s : ElementDefinitionCacheState)
    (matched : List MatchedNode) : DefPtr × ElementDefinitionCacheState :=
  let h := hashNodeSet (matched.map MatchedNode.id)
  match lookupAssoc s.node_cache h with
  | some d => (d, s)
  | none =>
    let d : DefPtr := ⟨s.next_addr, ⟨cascadeProperties matched⟩⟩
    (d, ⟨(h, d) :: s.node_cache, s.next_addr + 1⟩)

/-- Cache states reachable in the lifetime of a StyleSheet: the sheet starts
with an empty node_cache, and only GetElementDefinition touches it
(spec section 5, append-only cache). -/
inductive CacheReachable : ElementDefinitionCacheState → Prop where
  | init : CacheReachable ⟨[], 0⟩
  | step (s : ElementDefinitionCacheState) (matched : List MatchedNode) :
      CacheReachable s → CacheReachable (StyleSheet.GetElementDefinition s matched).2

/-! ## Theorems -/

theorem getStringWidthLoop_eq (glyphs : List ℤ) (bm_face : Option (Nat → Nat → ℤ)) :
    ∀ (string : List Nat) (prior : Nat) (width : ℤ),
      getStringWidthLoop glyphs bm_face string prior width
        = width + GetStringWidthSpec glyphs bm_face
            (string.filter (fun c => c < glyphs.length)) prior := by
  intro string
  induction string with
  | nil => intro prior width; simp [getStringWidthLoop, GetStringWidthSpec]
  | cons c rest ih =>
    intro prior width
    by_cases hc : c < glyphs.length
    · by_cases hp : prior ≠ 0
      · simp only [getStringWidthLoop, if_pos hc, if_pos hp, ih, List.filter_cons,
          decide_eq_true hc, if_pos, GetStringWidthSpec]
        ring
      · simp only [getStringWidthLoop, if_pos hc, if_neg hp, ih, List.filter_cons,
          decide_eq_true hc, if_pos, GetStringWidthSpec]
        simp only [ne_eq, not_not] at hp
        simp [hp]
        ring
    · simp only [getStringWidthLoop, if_neg hc, ih, List.filter_cons]
      simp [hc]

/-- C8: GetStringWidth returns the sum, over exactly the characters whose
code is below glyphs.size(), of the glyph advance plus the kerning between
the previously processed in-range character (seeded by the prior_character
argument) and the current character, the kerning added only when that
predecessor is nonzero; out-of-range characters contribute nothing and
leave the kerning predecessor unchanged; and GetKerning returns 0 whenever
bm_face is null. -/
theorem GetStringWidth_sums_in_range_advances (glyphs : List ℤ)
    (bm_face : Option (Nat → Nat → ℤ)) (string : List Nat) (prior_character : Nat) :
    FontFaceHandle.GetStringWidth glyphs bm_face string prior_character
      = GetStringWidthSpec glyphs bm_face
          (string.filter (fun c => c < glyphs.length)) prior_character
    ∧ ∀ lhs rhs, FontFaceHandle.GetKerning none lhs rhs = 0 := by
  refine ⟨?_, fun lhs rhs => rfl⟩
  unfold FontFaceHandle.GetStringWidth
  rw [getStringWidthLoop_eq]
  ring

/-- C7: the precondition of the two RMLUI_ASSERT statements of
GenerateString makes the indexing of layer_configurations in bounds: under
0 <= index < layer_configurations.size() the call succeeds and the
out-of-range branch is unreachable. -/
theorem GenerateString_layer_configuration_index_in_bounds
    (layer_configurations : List (List Nat)) (glyphs : List ℤ)
    (bm_face : Option (Nat → Nat → ℤ)) (string : List Nat)
    (layer_configuration_index : ℤ)
    (h0 : 0 ≤ layer_configuration_index)
    (h1 : layer_configuration_index < layer_configurations.length) :
    (FontFaceHandle.GenerateString layer_configurations glyphs bm_face string
        layer_configuration_index).isSome = true := by
  unfold FontFaceHandle.GenerateString
  rw [if_neg (not_lt.mpr h0)]
  have hlt : layer_configuration_index.toNat < layer_configurations.length := by omega
  rw [List.getElem?_eq_getElem hlt]
  rfl

theorem GenerateString_layer_configuration_index_in_bounds_witness :
    (0 : ℤ) ≤ 0 ∧ (0 : ℤ) < ([[1]] : List (List Nat)).length ∧
    (FontFaceHandle.GenerateString [[1]] [] none [] 0).isSome = true :=
  ⟨le_refl 0, by decide,
    GenerateString_layer_configuration_index_in_bounds [[1]] [] none [] 0
      (le_refl 0) (by decide)⟩

/-- C6 counterexample: the charset "32-126,bogus" holds one malformed entry
next to a well-formed one; Initialise does not drop the bad entry and
continue with the remainder — it returns false with nothing processed,
logging a diagnostic for the whole charset. -/
theorem Initialise_malformed_charset_aborts :
    (FontFaceHandle.Initialise "32-126,bogus").ok = false ∧
    (FontFaceHandle.Initialise "32-126,bogus").glyph_map_built = false ∧
    (FontFaceHandle.Initialise "32-126,bogus").charset = [] ∧
    (FontFaceHandle.Initialise "32-126,bogus").logs ≠ [] := by
  decide

/-- C6 (amended): a malformed charset specification is not recovered
locally; whenever UnicodeRange::BuildList fails, Initialise logs one
diagnostic naming the charset and returns false, aborting the whole
operation instead of dropping the offending entry and continuing with the
remainder. -/
theorem Initialise_malformed_charset_logs_and_fails (raw_charset : String)
    (h : UnicodeRange.BuildList raw_charset = none) :
    (FontFaceHandle.Initialise raw_charset).ok = false ∧
    (FontFaceHandle.Initialise raw_charset).logs
        = ["Invalid font charset " ++ raw_charset] ∧
    (FontFaceHandle.Initialise raw_charset).glyph_map_built = false := by
  simp [FontFaceHandle.Initialise, h]

theorem Initialise_malformed_charset_logs_and_fails_witness :
    UnicodeRange.BuildList "bogus" = none ∧
    (FontFaceHandle.Initialise "bogus").ok = false :=
  ⟨by decide, (Initialise_malformed_charset_logs_and_fails "bogus" (by decide)).1⟩

theorem instanceEffectsLoop_eq (effect_map : List (List Char × DecoratorSpecification))
    (source_file : String) (source_line_number : ℤ) :
    ∀ entries : List (List Char),
      instanceEffectsLoop effect_map source_file source_line_number entries
        = (entries.filterMap (parseEffectEntry effect_map),
           (entries.filter (fun e => (parseEffectEntry effect_map e).isNone)).map
             (fun e => ⟨source_file, source_line_number, e⟩)) := by
  intro entries
  induction entries with
  | nil => rfl
  | cons e rest ih =>
    cases hpe : parseEffectEntry effect_map e <;>
      simp [instanceEffectsLoop, ih, hpe, List.filterMap_cons, List.filter_cons]

/-- C5: for every declaration string, InstanceDecoratorsFromString and
InstanceFontEffectsFromString instance exactly the well-formed
comma-separated entries, in order, and emit one logged diagnostic carrying
the source file and line number for each malformed entry; a malformed entry
is never fatal (both operations are total) and never suppresses the valid
entries. -/
theorem InstanceFromString_skips_malformed_keeps_wellformed
    (effect_map : List (List Char × DecoratorSpecification))
    (value : String) (source_file : String) (source_line_number : ℤ) :
    (StyleSheet.InstanceDecoratorsFromString effect_map value source_file
        source_line_number).1
      = (splitOnChar ',' value.data).filterMap (parseEffectEntry effect_map)
    ∧ (StyleSheet.InstanceDecoratorsFromString effect_map value source_file
        source_line_number).2
      = ((splitOnChar ',' value.data).filter
          (fun e => (parseEffectEntry effect_map e).isNone)).map
          (fun e => ⟨source_file, source_line_number, e⟩)
    ∧ (StyleSheet.InstanceFontEffectsFromString effect_map value source_file
        source_line_number).1
      = (splitOnChar ',' value.data).filterMap (parseEffectEntry effect_map)
    ∧ (StyleSheet.InstanceFontEffectsFromString effect_map value source_file
        source_line_number).2
      = ((splitOnChar ',' value.data).filter
          (fun e => (parseEffectEntry effect_map e).isNone)).map
          (fun e => ⟨source_file, source_line_number, e⟩) := by
  unfold StyleSheet.InstanceDecoratorsFromString StyleSheet.InstanceFontEffectsFromString
  rw [instanceEffectsLoop_eq]
  exact ⟨rfl, rfl, rfl, rfl⟩

theorem GetElementDefinition_eq_hit (s : ElementDefinitionCacheState)
    (matched : List MatchedNode) (d : DefPtr)
    (hL : lookupAssoc s.node_cache (hashNodeSet (matched.map MatchedNode.id)) = some d) :
    StyleSheet.GetElementDefinition s matched = (d, s) := by
  simp only [StyleSheet.GetElementDefinition]
  rw [hL]

theorem GetElementDefinition_eq_miss (s : ElementDefinitionCacheState)
    (matched : List MatchedNode)
    (hL : lookupAssoc s.node_cache (hashNodeSet (matched.map MatchedNode.id)) = none) :
    StyleSheet.GetElementDefinition s matched
      = (⟨s.next_addr, ⟨cascadeProperties matched⟩⟩,
         ⟨(hashNodeSet (matched.map MatchedNode.id),
             ⟨s.next_addr, ⟨cascadeProperties matched⟩⟩) :: s.node_cache,
           s.next_addr + 1⟩) := by
  simp only [StyleSheet.GetElementDefinition]
  rw [hL]

theorem GetElementDefinition_preserves_entry (s : ElementDefinitionCacheState)
    (matched : List MatchedNode) (h : Nat) (d : DefPtr)
    (hd : lookupAssoc s.node_cache h = some d) :
    lookupAssoc (StyleSheet.GetElementDefinition s matched).2.node_cache h = some d := by
  cases hL : lookupAssoc s.node_cache (hashNodeSet (matched.map MatchedNode.id)) with
  | some d0 => rw [GetElementDefinition_eq_hit s matched d0 hL]; exact hd
  | none =>
    rw [GetElementDefinition_eq_miss s matched hL]
    show lookupAssoc ((hashNodeSet (matched.map MatchedNode.id),
        (⟨s.next_addr, ⟨cascadeProperties matched⟩⟩ : DefPtr)) :: s.node_cache) h = some d
    unfold lookupAssoc
    rw [if_neg]
    · exact hd
    · intro hEq
      rw [hEq, hL] at hd
      exact Option.noConfusion hd

/-- C1: two GetElementDefinition calls whose elements match an identical
node set (compared by node identity) return the same cached
ElementDefinition object — the very same shared handle, reference-identical
and not merely value-equal — and no GetElementDefinition call ever evicts
or replaces an existing node_cache entry, so the entry created on the first
miss survives for the lifetime of the StyleSheet. -/
theorem GetElementDefinition_cache_identity (s : ElementDefinitionCacheState)
    (m1 m2 : List MatchedNode)
    (hm : m1.map MatchedNode.id = m2.map MatchedNode.id) :
    (StyleSheet.GetElementDefinition s m1).1
      = (StyleSheet.GetElementDefinition
          (StyleSheet.GetElementDefinition s m1).2 m2).1
    ∧ ∀ (s' : ElementDefinitionCacheState) (matched : List MatchedNode)
        (h : Nat) (d : DefPtr),
        lookupAssoc s'.node_cache h = some d →
        lookupAssoc (StyleSheet.GetElementDefinition s' matched).2.node_cache h
          = some d := by
  refine ⟨?_, GetElementDefinition_preserves_entry⟩
  cases hL : lookupAssoc s.node_cache (hashNodeSet (m1.map MatchedNode.id)) with
  | some d =>
    rw [GetElementDefinition_eq_hit s m1 d hL]
    have hL2 : lookupAssoc s.node_cache (hashNodeSet (m2.map MatchedNode.id)) = some d := by
      rw [← hm]; exact hL
    rw [GetElementDefinition_eq_hit s m2 d hL2]
  | none =>
    rw [GetElementDefinition_eq_miss s m1 hL]
    have hL2 : lookupAssoc
        ((hashNodeSet (m1.map MatchedNode.id),
            (⟨s.next_addr, ⟨cascadeProperties m1⟩⟩ : DefPtr)) :: s.node_cache)
          (hashNodeSet (m2.map MatchedNode.id))
        = some ⟨s.next_addr, ⟨cascadeProperties m1⟩⟩ := by
      unfold lookupAssoc
      rw [← hm, if_pos rfl]
    rw [GetElementDefinition_eq_hit _ m2 _ hL2]

theorem GetElementDefinition_cache_identity_witness :
    (StyleSheet.GetElementDefinition ⟨[], 0⟩ [⟨5, 2, [(1, 7)]⟩]).1
      = (StyleSheet.GetElementDefinition
          (StyleSheet.GetElementDefinition ⟨[], 0⟩ [⟨5, 2, [(1, 7)]⟩]).2
          [⟨5, 2, [(1, 7)]⟩]).1 :=
  (GetElementDefinition_cache_identity ⟨[], 0⟩ [⟨5, 2, [(1, 7)]⟩] [⟨5, 2, [(1, 7)]⟩]
    rfl).1

theorem hashNodeSet_eq_zero {l : List Nat} (h : hashNodeSet l = 0) : l = [] := by
  cases l with
  | nil => rfl
  | cons i rest => simp [hashNodeSet] at h

theorem cache_zero_hash_entries_empty (s : ElementDefinitionCacheState)
    (hr : CacheReachable s) :
    ∀ d : DefPtr, lookupAssoc s.node_cache 0 = some d → d.defn.properties = [] := by
  induction hr with
  | init => intro d hd; exact Option.noConfusion hd
  | step s matched _ ih =>
    intro d hd
    cases hL : lookupAssoc s.node_cache (hashNodeSet (matched.map MatchedNode.id)) with
    | some d0 =>
      rw [GetElementDefinition_eq_hit s matched d0 hL] at hd
      exact ih d hd
    | none =>
      rw [GetElementDefinition_eq_miss s matched hL] at hd
      unfold lookupAssoc at hd
      by_cases hz : (0 : Nat) = hashNodeSet (matched.map MatchedNode.id)
      · rw [if_pos hz] at hd
        have hm : matched.map MatchedNode.id = [] := hashNodeSet_eq_zero hz.symm
        have hmm : matched = [] := List.map_eq_nil_iff.mp hm
        have hds : d = ⟨s.next_addr, ⟨cascadeProperties matched⟩⟩ :=
          (Option.some_inj.mp hd).symm
        rw [hds, hmm]
        rfl
      · rw [if_neg hz] at hd
        exact ih d hd

/-- C2: GetElementDefinition never fails — it is total — and for an element
matching zero StyleSheetNodes it returns a valid ElementDefinition holding
no properties, in every cache state reachable during the lifetime of the
StyleSheet. -/
theorem GetElementDefinition_empty_match (s : ElementDefinitionCacheState)
    (hs : CacheReachable s) :
    (StyleSheet.GetElementDefinition s []).1.defn.properties = [] := by
  cases hL : lookupAssoc s.node_cache
      (hashNodeSet (([] : List MatchedNode).map MatchedNode.id)) with
  | some d =>
    rw [GetElementDefinition_eq_hit s [] d hL]
    exact cache_zero_hash_entries_empty s hs d hL
  | none =>
    rw [GetElementDefinition_eq_miss s [] hL]
    rfl

theorem GetElementDefinition_empty_match_witness :
    (StyleSheet.GetElementDefinition ⟨[], 0⟩ []).1.defn.properties = [] :=
  GetElementDefinition_empty_match ⟨[], 0⟩ CacheReachable.init

theorem lookupAssoc_append {α β : Type} [DecidableEq α] (l1 l2 : List (α × β)) (k : α) :
    lookupAssoc (l1 ++ l2) k = (lookupAssoc l1 k).or (lookupAssoc l2 k) := by
  induction l1 with
  | nil => simp [lookupAssoc]
  | cons kv rest ih =>
    obtain ⟨k1, v1⟩ := kv
    by_cases hk : k = k1
    · simp [lookupAssoc, hk]
    · simp [lookupAssoc, hk, ih]

theorem lookupAssoc_mem {α β : Type} [DecidableEq α] {l : List (α × β)} {k : α} {v : β}
    (h : lookupAssoc l k = some v) : (k, v) ∈ l := by
  induction l with
  | nil => exact Option.noConfusion h
  | cons kv rest ih =>
    obtain ⟨k1, v1⟩ := kv
    unfold lookupAssoc at h
    by_cases hk : k = k1
    · rw [if_pos hk] at h
      rw [hk, Option.some_inj.mp h]
      exact List.mem_cons_self _ _
    · rw [if_neg hk] at h
      exact List.mem_cons_of_mem _ (ih h)

theorem lookupAssoc_filter_key {α β : Type} [DecidableEq α] (p : α → Bool)
    (l : List (α × β)) (k : α) (hp : p k = true) :
    lookupAssoc (l.filter (fun kv => p kv.1)) k = lookupAssoc l k := by
  induction l with
  | nil => rfl
  | cons kv rest ih =>
    obtain ⟨k1, v1⟩ := kv
    by_cases hk : k = k1
    · subst hk
      rw [List.filter_cons, if_pos (by simpa using hp)]
      simp [lookupAssoc]
    · rw [List.filter_cons]
      by_cases hkeep : p k1 = true
      · rw [if_pos (by simpa using hkeep)]
        simp [lookupAssoc, hk, ih]
      · rw [if_neg (by simpa using hkeep)]
        simp [lookupAssoc, hk, ih]

theorem lookupAssoc_mergeProperties_right (pa pb : List (Nat × Nat)) (k v : Nat)
    (h : lookupAssoc pb k = some v) :
    lookupAssoc (mergeProperties pa pb) k = some v := by
  unfold mergeProperties
  rw [lookupAssoc_append]
  have hnone : lookupAssoc (pa.filter fun kv => (lookupAssoc pb kv.1).isNone) k = none := by
    induction pa with
    | nil => rfl
    | cons kv rest ih =>
      obtain ⟨k1, v1⟩ := kv
      rw [List.filter_cons]
      by_cases hkeep : (lookupAssoc pb k1).isNone = true
      · rw [if_pos (by simpa using hkeep)]
        unfold lookupAssoc
        rw [if_neg]
        · exact ih
        · intro hEq
          rw [← hEq] at hkeep
          rw [h] at hkeep
          exact Bool.noConfusion hkeep
      · rw [if_neg (by simpa using hkeep)]
        exact ih
  rw [hnone]
  exact h

theorem lookupAssoc_combineChildren (ca cb : List (String × StyleSheetNode)) (k : String) :
    lookupAssoc (combineChildren ca cb) k
      = (lookupAssoc ca k).map (fun c =>
          match lookupAssoc cb k with
          | some cbk => combineNodes c cbk
          | none => c) := by
  induction ca with
  | nil => rfl
  | cons kc rest ih =>
    obtain ⟨k1, c1⟩ := kc
    by_cases hk : k = k1
    · subst hk
      cases hcb : lookupAssoc cb k <;>
        simp [combineChildren, lookupAssoc, hcb]
    · cases hcb : lookupAssoc cb k1 <;>
        simp [combineChildren, lookupAssoc, hk, hcb, ih]

theorem combineNodes_children (sa sb : Nat) (pa pb : List (Nat × Nat))
    (ca cb : List (String × StyleSheetNode)) :
    (combineNodes (.node sa pa ca) (.node sb pb cb)).children
      = combineChildren ca cb ++ cb.filter (fun kc => (lookupAssoc ca kc.1).isNone) := rfl

theorem lookupAssoc_combineNodes_children (a b : StyleSheetNode) (k : String) :
    lookupAssoc (combineNodes a b).children k
      = match lookupAssoc a.children k, lookupAssoc b.children k with
        | some c, some cbk => some (combineNodes c cbk)
        | some c, none => some c
        | none, r => r := by
  obtain ⟨sa, pa, ca⟩ := a
  obtain ⟨sb, pb, cb⟩ := b
  rw [combineNodes_children, lookupAssoc_append, lookupAssoc_combineChildren]
  cases hca : lookupAssoc ca k with
  | some c =>
    cases hcb : lookupAssoc cb k <;> simp [StyleSheetNode.children, hca, hcb]
  | none =>
    rw [lookupAssoc_filter_key (fun key0 => (lookupAssoc ca key0).isNone) cb k
      (by simp [hca])]
    cases hcb : lookupAssoc cb k <;> simp [StyleSheetNode.children, hca, hcb]

theorem nodeAt_combineNodes_left (chain : List String) :
    ∀ (a b na : StyleSheetNode), nodeAt a chain = some na →
      ∃ nc, nodeAt (combineNodes a b) chain = some nc := by
  induction chain with
  | nil => intro a b na _; exact ⟨combineNodes a b, rfl⟩
  | cons key rest ih =>
    intro a b na h
    unfold nodeAt at h
    cases hca : lookupAssoc a.children key with
    | none => rw [hca] at h; exact Option.noConfusion h
    | some c =>
      rw [hca] at h
      unfold nodeAt
      rw [lookupAssoc_combineNodes_children a b key, hca]
      cases hcb : lookupAssoc b.children key with
      | some cbk =>
        obtain ⟨nc, hnc⟩ := ih c cbk na h
        exact ⟨nc, hnc⟩
      | none => exact ⟨na, h⟩

theorem nodeAt_combineNodes_right (chain : List String) :
    ∀ (a b nb : StyleSheetNode), nodeAt b chain = some nb →
      ∃ nc, nodeAt (combineNodes a b) chain = some nc
        ∧ nb.specificity ≤ nc.specificity
        ∧ ∀ k v, lookupAssoc nb.properties k = some v →
            lookupAssoc nc.properties k = some v := by
  induction chain with
  | nil =>
    intro a b nb h
    have hb : nb = b := (Option.some_inj.mp h).symm
    subst hb
    refine ⟨combineNodes a nb, rfl, ?_, ?_⟩
    · obtain ⟨sa, pa, ca⟩ := a
      obtain ⟨sb, pb, cb⟩ := nb
      simp [combineNodes, StyleSheetNode.specificity]
    · intro k v hv
      obtain ⟨sa, pa, ca⟩ := a
      obtain ⟨sb, pb, cb⟩ := nb
      simp only [StyleSheetNode.properties] at hv ⊢
      show lookupAssoc (mergeProperties pa pb) k = some v
      exact lookupAssoc_mergeProperties_right pa pb k v hv
  | cons key rest ih =>
    intro a b nb h
    unfold nodeAt at h
    cases hcb : lookupAssoc b.children key with
    | none => rw [hcb] at h; exact Option.noConfusion h
    | some cbk =>
      rw [hcb] at h
      unfold nodeAt
      rw [lookupAssoc_combineNodes_children a b key, hcb]
      cases hca : lookupAssoc a.children key with
      | some c => exact ih c cbk nb h
      | none => exact ⟨nb, h, le_refl _, fun k v hv => hv⟩

theorem lookupAssoc_optimizeChildren (inst : Nat → Nat)
    (c : List (String × StyleSheetNode)) (k : String) :
    lookupAssoc (optimizeChildrenProperties inst c) k
      = (lookupAssoc c k).map (optimizeNodeProperties inst) := by
  induction c with
  | nil => rfl
  | cons kc rest ih =>
    obtain ⟨k1, c1⟩ := kc
    by_cases hk : k = k1 <;>
      simp [optimizeChildrenProperties, lookupAssoc, hk, ih]

theorem nodeAt_optimizeNodeProperties (inst : Nat → Nat) (chain : List String) :
    ∀ n : StyleSheetNode,
      nodeAt (optimizeNodeProperties inst n) chain
        = (nodeAt n chain).map (optimizeNodeProperties inst) := by
  induction chain with
  | nil => intro n; rfl
  | cons key rest ih =>
    intro n
    obtain ⟨s, p, c⟩ := n
    show nodeAt (.node s (p.map fun kv => (kv.1, inst kv.2))
        (optimizeChildrenProperties inst c)) (key :: rest) = _
    unfold nodeAt
    rw [show (StyleSheetNode.node s (p.map fun kv => (kv.1, inst kv.2))
        (optimizeChildrenProperties inst c)).children
        = optimizeChildrenProperties inst c from rfl]
    rw [lookupAssoc_optimizeChildren]
    show _ = (match lookupAssoc c key with
      | some c1 => nodeAt c1 rest
      | none => none).map (optimizeNodeProperties inst)
    cases hc : lookupAssoc c key with
    | none => rfl
    | some c1 => simpa using ih c1

theorem lookupAssoc_addOffsetChildren (d : Nat)
    (c : List (String × StyleSheetNode)) (k : String) :
    lookupAssoc (addSpecificityOffsetChildren d c) k
      = (lookupAssoc c k).map (addSpecificityOffset d) := by
  induction c with
  | nil => rfl
  | cons kc rest ih =>
    obtain ⟨k1, c1⟩ := kc
    by_cases hk : k = k1 <;>
      simp [addSpecificityOffsetChildren, lookupAssoc, hk, ih]

theorem nodeAt_addSpecificityOffset (d : Nat) (chain : List String) :
    ∀ n : StyleSheetNode,
      nodeAt (addSpecificityOffset d n) chain
        = (nodeAt n chain).map (addSpecificityOffset d) := by
  induction chain with
  | nil => intro n; rfl
  | cons key rest ih =>
    intro n
    obtain ⟨s, p, c⟩ := n
    show nodeAt (.node (s + d) p (addSpecificityOffsetChildren d c)) (key :: rest) = _
    unfold nodeAt
    rw [show (StyleSheetNode.node (s + d) p (addSpecificityOffsetChildren d c)).children
        = addSpecificityOffsetChildren d c from rfl]
    rw [lookupAssoc_addOffsetChildren]
    show _ = (match lookupAssoc c key with
      | some c1 => nodeAt c1 rest
      | none => none).map (addSpecificityOffset d)
    cases hc : lookupAssoc c key with
    | none => rfl
    | some c1 => simpa using ih c1

theorem addSpecificityOffset_specificity (d : Nat) (n : StyleSheetNode) :
    (addSpecificityOffset d n).specificity = n.specificity + d := by
  obtain ⟨s, p, c⟩ := n; rfl

theorem addSpecificityOffset_properties (d : Nat) (n : StyleSheetNode) :
    (addSpecificityOffset d n).properties = n.properties := by
  obtain ⟨s, p, c⟩ := n; rfl

theorem maxSpecificityChildren_mem {c : List (String × StyleSheetNode)}
    {k : String} {n : StyleSheetNode} (h : (k, n) ∈ c) :
    maxSpecificity n ≤ maxSpecificityChildren c := by
  induction c with
  | nil => exact absurd h (List.not_mem_nil _)
  | cons kc rest ih =>
    obtain ⟨k1, c1⟩ := kc
    rcases List.mem_cons.mp h with heq | hmem
    · rw [show n = c1 from congrArg Prod.snd heq]
      exact le_max_of_le_left (le_refl _)
    · exact le_max_of_le_right (ih hmem)

theorem nodeAt_specificity_le_max (chain : List String) :
    ∀ n m : StyleSheetNode, nodeAt n chain = some m →
      m.specificity ≤ maxSpecificity n := by
  induction chain with
  | nil =>
    intro n m h
    rw [show m = n from (Option.some_inj.mp h).symm]
    obtain ⟨s, p, c⟩ := n
    exact le_max_of_le_left (le_refl _)
  | cons key rest ih =>
    intro n m h
    unfold nodeAt at h
    cases hc : lookupAssoc n.children key with
    | none => rw [hc] at h; exact Option.noConfusion h
    | some c1 =>
      rw [hc] at h
      have h1 : m.specificity ≤ maxSpecificity c1 := ih c1 m h
      have h2 : maxSpecificity c1 ≤ maxSpecificityChildren n.children :=
        maxSpecificityChildren_mem (lookupAssoc_mem hc)
      obtain ⟨s, p, c⟩ := n
      exact le_trans h1 (le_trans h2 (le_max_of_le_right (le_refl _)))

/-- C3: combining two stylesheets and then rebuilding the node index yields
a sheet whose tree contains every selector chain present in either input
(the union of the two selector-chain sets is a subset of the selector-chain
set of the result); the combination is a total operation and cannot fail. -/
theorem CombineStyleSheet_contains_all_chains (inst : Nat → Nat) (a b : StyleSheet)
    (chain : List String)
    (h : hasChain a.root chain = true ∨ hasChain b.root chain = true) :
    hasChain ((a.CombineStyleSheet b).BuildNodeIndexAndOptimizeProperties inst).root
      chain = true := by
  have hroot : ((a.CombineStyleSheet b).BuildNodeIndexAndOptimizeProperties inst).root
      = optimizeNodeProperties inst
          (combineNodes a.root
            (addSpecificityOffset (a.specificity_offset + maxSpecificity a.root)
              b.root)) := rfl
  rw [hasChain, hroot, nodeAt_optimizeNodeProperties]
  rcases h with hA | hB
  · rw [hasChain] at hA
    obtain ⟨na, hna⟩ := Option.isSome_iff_exists.mp hA
    obtain ⟨nc, hnc⟩ := nodeAt_combineNodes_left chain a.root _ na hna
    rw [hnc]
    rfl
  · rw [hasChain] at hB
    obtain ⟨nb, hnb⟩ := Option.isSome_iff_exists.mp hB
    have hnb2 : nodeAt (addSpecificityOffset
          (a.specificity_offset + maxSpecificity a.root) b.root) chain
        = some (addSpecificityOffset
            (a.specificity_offset + maxSpecificity a.root) nb) := by
      rw [nodeAt_addSpecificityOffset, hnb]
      rfl
    obtain ⟨nc, hnc, -, -⟩ := nodeAt_combineNodes_right chain a.root _ _ hnb2
    rw [hnc]
    rfl

theorem CombineStyleSheet_contains_all_chains_witness :
    hasChain ((StyleSheet.CombineStyleSheet
        ⟨StyleSheetNode.node 0 [] [("p", StyleSheetNode.node 1 [(1, 1)] [])], 0, [], []⟩
        ⟨StyleSheetNode.node 0 [] [("q", StyleSheetNode.node 1 [(1, 2)] [])], 0, [], []⟩
        ).BuildNodeIndexAndOptimizeProperties (fun v => v)).root ["q"] = true :=
  CombineStyleSheet_contains_all_chains (fun v => v)
    ⟨StyleSheetNode.node 0 [] [("p", StyleSheetNode.node 1 [(1, 1)] [])], 0, [], []⟩
    ⟨StyleSheetNode.node 0 [] [("q", StyleSheetNode.node 1 [(1, 2)] [])], 0, [], []⟩
    ["q"] (Or.inr (by decide))

/-- C4: the specificity offset of a sheet combined by CombineStyleSheet is
at least each input offset — monotonically non-decreasing across successive
combinations, never reset — and the offset scheme makes the later-included
sheet win: where both sheets define the same selector chain, a property
value of the later sheet is the one found in the combined tree, and any rule
of the later sheet outranks (strictly, whenever the shared textual
specificity or the first sheet offset is positive) any rule of the first
sheet of equal textual specificity. -/
theorem CombineStyleSheet_offset_monotone_and_later_sheet_wins (a b : StyleSheet) :
    (a.specificity_offset ≤ (a.CombineStyleSheet b).specificity_offset
      ∧ b.specificity_offset ≤ (a.CombineStyleSheet b).specificity_offset)
    ∧ (∀ (chain : List String) (na nb : StyleSheetNode) (k v : Nat),
        nodeAt a.root chain = some na → nodeAt b.root chain = some nb →
        lookupAssoc nb.properties k = some v →
        ∃ nc, nodeAt (a.CombineStyleSheet b).root chain = some nc
          ∧ lookupAssoc nc.properties k = some v)
    ∧ (∀ (chainA chainB : List String) (na nb : StyleSheetNode),
        nodeAt a.root chainA = some na → nodeAt b.root chainB = some nb →
        na.specificity = nb.specificity →
        0 < na.specificity ∨ 0 < a.specificity_offset →
        ∃ nc, nodeAt (a.CombineStyleSheet b).root chainB = some nc
          ∧ na.specificity < nc.specificity) := by
  have hoff : (a.CombineStyleSheet b).specificity_offset
      = b.specificity_offset + (a.specificity_offset + maxSpecificity a.root) := rfl
  have hroot : (a.CombineStyleSheet b).root
      = combineNodes a.root
          (addSpecificityOffset (a.specificity_offset + maxSpecificity a.root)
            b.root) := rfl
  refine ⟨⟨?_, ?_⟩, ?_, ?_⟩
  · rw [hoff]; omega
  · rw [hoff]; omega
  · intro chain na nb k v hna hnb hv
    have hnb2 : nodeAt (addSpecificityOffset
          (a.specificity_offset + maxSpecificity a.root) b.root) chain
        = some (addSpecificityOffset
            (a.specificity_offset + maxSpecificity a.root) nb) := by
      rw [nodeAt_addSpecificityOffset, hnb]
      rfl
    obtain ⟨nc, hnc, -, hprops⟩ := nodeAt_combineNodes_right chain a.root _ _ hnb2
    refine ⟨nc, by rw [hroot]; exact hnc, ?_⟩
    apply hprops
    rw [addSpecificityOffset_properties]
    exact hv
  · intro chainA chainB na nb hna hnb heq hpos
    have hnb2 : nodeAt (addSpecificityOffset
          (a.specificity_offset + maxSpecificity a.root) b.root) chainB
        = some (addSpecificityOffset
            (a.specificity_offset + maxSpecificity a.root) nb) := by
      rw [nodeAt_addSpecificityOffset, hnb]
      rfl
    obtain ⟨nc, hnc, hspec, -⟩ := nodeAt_combineNodes_right chainB a.root _ _ hnb2
    refine ⟨nc, by rw [hroot]; exact hnc, ?_⟩
    rw [addSpecificityOffset_specificity] at hspec
    have hmax : na.specificity ≤ maxSpecificity a.root :=
      nodeAt_specificity_le_max chainA a.root na hna
    omega

theorem CombineStyleSheet_offset_monotone_and_later_sheet_wins_witness :
    ∃ nc, nodeAt (StyleSheet.CombineStyleSheet
        ⟨StyleSheetNode.node 1 [(1, 5)] [], 0, [], []⟩
        ⟨StyleSheetNode.node 1 [(1, 9)] [], 0, [], []⟩).root []
      = some nc ∧ lookupAssoc nc.properties 1 = some 9 :=
  (CombineStyleSheet_offset_monotone_and_later_sheet_wins
      ⟨StyleSheetNode.node 1 [(1, 5)] [], 0, [], []⟩
      ⟨StyleSheetNode.node 1 [(1, 9)] [], 0, [], []⟩).2.1 []
    (StyleSheetNode.node 1 [(1, 5)] []) (StyleSheetNode.node 1 [(1, 9)] []) 1 9
    rfl rfl (by decide)

theorem clampScrollDistance_pos_bounds {target_delta : ℚ} (scroll_distance : ℚ)
    (h : 0 < target_delta) :
    min 1 target_delta ≤ clampScrollDistance target_delta scroll_distance
      ∧ clampScrollDistance target_delta scroll_distance ≤ target_delta := by
  unfold clampScrollDistance
  rw [if_pos h]
  exact ⟨min_le_min (le_max_right _ _) (le_refl _), min_le_right _ _⟩

theorem clampScrollDistance_neg_bounds {target_delta : ℚ} (scroll_distance : ℚ)
    (h : target_delta < 0) :
    target_delta ≤ clampScrollDistance target_delta scroll_distance
      ∧ clampScrollDistance target_delta scroll_distance ≤ max (-1) target_delta := by
  unfold clampScrollDistance
  rw [if_neg (not_lt.mpr h.le), if_pos h]
  exact ⟨le_max_right _ _, max_le_max (min_le_right _ _) (le_refl _)⟩

theorem clampScrollDistance_zero_eq (scroll_distance : ℚ) :
    clampScrollDistance 0 scroll_distance = 0 := by
  unfold clampScrollDistance
  norm_num

/-- C9 (amended): in every UpdateSmoothscroll step whose scroll event is
handled, each axis emits a distance that never overshoots: for positive
remaining target delta the emitted distance lies in [min 1 td, td] (so at
least 1 whenever a full pixel remains, and exactly the remainder when less
than a pixel remains), symmetrically within [td, max (-1) td] for negative
td, and exactly 0 for zero td; consequently the remaining distance to the
target never changes sign, and the controller resets exactly when the
emitted distance equals the full remaining target delta. -/
theorem UpdateSmoothscroll_never_overshoots (s : SmoothscrollState) (raw : ℚ × ℚ) :
    (0 < (targetDelta s).1 →
        min 1 (targetDelta s).1 ≤ (UpdateSmoothscroll s raw false).emitted.1
          ∧ (UpdateSmoothscroll s raw false).emitted.1 ≤ (targetDelta s).1)
    ∧ ((targetDelta s).1 < 0 →
        (targetDelta s).1 ≤ (UpdateSmoothscroll s raw false).emitted.1
          ∧ (UpdateSmoothscroll s raw false).emitted.1 ≤ max (-1) (targetDelta s).1)
    ∧ ((targetDelta s).1 = 0 → (UpdateSmoothscroll s raw false).emitted.1 = 0)
    ∧ (0 < (targetDelta s).2 →
        min 1 (targetDelta s).2 ≤ (UpdateSmoothscroll s raw false).emitted.2
          ∧ (UpdateSmoothscroll s raw false).emitted.2 ≤ (targetDelta s).2)
    ∧ ((targetDelta s).2 < 0 →
        (targetDelta s).2 ≤ (UpdateSmoothscroll s raw false).emitted.2
          ∧ (UpdateSmoothscroll s raw false).emitted.2 ≤ max (-1) (targetDelta s).2)
    ∧ ((targetDelta s).2 = 0 → (UpdateSmoothscroll s raw false).emitted.2 = 0)
    ∧ (0 ≤ (targetDelta s).1 →
        0 ≤ (targetDelta s).1 - (UpdateSmoothscroll s raw false).emitted.1)
    ∧ ((targetDelta s).1 ≤ 0 →
        (targetDelta s).1 - (UpdateSmoothscroll s raw false).emitted.1 ≤ 0)
    ∧ (0 ≤ (targetDelta s).2 →
        0 ≤ (targetDelta s).2 - (UpdateSmoothscroll s raw false).emitted.2)
    ∧ ((targetDelta s).2 ≤ 0 →
        (targetDelta s).2 - (UpdateSmoothscroll s raw false).emitted.2 ≤ 0)
    ∧ ((UpdateSmoothscroll s raw false).did_reset = true ↔
        (UpdateSmoothscroll s raw false).emitted = targetDelta s) := by
  have he1 : (UpdateSmoothscroll s raw false).emitted.1
      = clampScrollDistance (targetDelta s).1 raw.1 := rfl
  have he2 : (UpdateSmoothscroll s raw false).emitted.2
      = clampScrollDistance (targetDelta s).2 raw.2 := rfl
  have hpos1 : 0 < (targetDelta s).1 →
      min 1 (targetDelta s).1 ≤ (UpdateSmoothscroll s raw false).emitted.1
        ∧ (UpdateSmoothscroll s raw false).emitted.1 ≤ (targetDelta s).1 := fun h => by
    rw [he1]; exact clampScrollDistance_pos_bounds raw.1 h
  have hneg1 : (targetDelta s).1 < 0 →
      (targetDelta s).1 ≤ (UpdateSmoothscroll s raw false).emitted.1
        ∧ (UpdateSmoothscroll s raw false).emitted.1 ≤ max (-1) (targetDelta s).1 :=
    fun h => by
    rw [he1]; exact clampScrollDistance_neg_bounds raw.1 h
  have hzero1 : (targetDelta s).1 = 0 → (UpdateSmoothscroll s raw false).emitted.1 = 0 :=
    fun h => by rw [he1, h, clampScrollDistance_zero_eq]
  have hpos2 : 0 < (targetDelta s).2 →
      min 1 (targetDelta s).2 ≤ (UpdateSmoothscroll s raw false).emitted.2
        ∧ (UpdateSmoothscroll s raw false).emitted.2 ≤ (targetDelta s).2 := fun h => by
    rw [he2]; exact clampScrollDistance_pos_bounds raw.2 h
  have hneg2 : (targetDelta s).2 < 0 →
      (targetDelta s).2 ≤ (UpdateSmoothscroll s raw false).emitted.2
        ∧ (UpdateSmoothscroll s raw false).emitted.2 ≤ max (-1) (targetDelta s).2 :=
    fun h => by
    rw [he2]; exact clampScrollDistance_neg_bounds raw.2 h
  have hzero2 : (targetDelta s).2 = 0 → (UpdateSmoothscroll s raw false).emitted.2 = 0 :=
    fun h => by rw [he2, h, clampScrollDistance_zero_eq]
  refine ⟨hpos1, hneg1, hzero1, hpos2, hneg2, hzero2, ?_, ?_, ?_, ?_, ?_⟩
  · intro h
    rcases h.lt_or_eq with hlt | heq
    · have := (hpos1 hlt).2
      linarith
    · rw [hzero1 heq.symm, ← heq]
      norm_num
  · intro h
    rcases h.lt_or_eq with hlt | heq
    · have := (hneg1 hlt).1
      linarith
    · rw [hzero1 heq, heq]
      norm_num
  · intro h
    rcases h.lt_or_eq with hlt | heq
    · have := (hpos2 hlt).2
      linarith
    · rw [hzero2 heq.symm, ← heq]
      norm_num
  · intro h
    rcases h.lt_or_eq with hlt | heq
    · have := (hneg2 hlt).1
      linarith
    · rw [hzero2 heq, heq]
      norm_num
  · have hr : (UpdateSmoothscroll s raw false).did_reset
        = (((!decide (((clampScrollDistance (targetDelta s).1 raw.1,
              clampScrollDistance (targetDelta s).2 raw.2) : ℚ × ℚ) = (0, 0)))
            && false)
          || decide ((clampScrollDistance (targetDelta s).1 raw.1,
              clampScrollDistance (targetDelta s).2 raw.2) = targetDelta s)) := rfl
    rw [Bool.and_false, Bool.false_or] at hr
    rw [hr]
    have hep : (UpdateSmoothscroll s raw false).emitted
        = (clampScrollDistance (targetDelta s).1 raw.1,
           clampScrollDistance (targetDelta s).2 raw.2) := rfl
    rw [hep]
    exact decide_eq_true_iff

theorem UpdateSmoothscroll_never_overshoots_witness :
    0 < (targetDelta ⟨(3, 4), (0, 0)⟩).1
    ∧ (UpdateSmoothscroll ⟨(3, 4), (0, 0)⟩ (10, 10) false).emitted.1
        ≤ (targetDelta ⟨(3, 4), (0, 0)⟩).1 :=
  ⟨by simp [targetDelta],
    ((UpdateSmoothscroll_never_overshoots ⟨(3, 4), (0, 0)⟩ (10, 10)).1
      (by simp [targetDelta])).2⟩

/-- C9 counterexample: with remaining target delta (1/2, 5), rounded
integration step (5, 2) and an unhandled scroll event, the emitted x
distance is 1/2, which does not lie in [1, 1/2] although the x target delta
is positive, and the controller resets although the emitted distance
differs from the full remaining target delta. -/
theorem UpdateSmoothscroll_claim_false_at_half_pixel :
    0 < (targetDelta ⟨(1/2, 5), (0, 0)⟩).1
    ∧ ¬ (1 ≤ (UpdateSmoothscroll ⟨(1/2, 5), (0, 0)⟩ (5, 2) true).emitted.1)
    ∧ (UpdateSmoothscroll ⟨(1/2, 5), (0, 0)⟩ (5, 2) true).did_reset = true
    ∧ (UpdateSmoothscroll ⟨(1/2, 5), (0, 0)⟩ (5, 2) true).emitted
        ≠ targetDelta ⟨(1/2, 5), (0, 0)⟩ := by
  have htd : targetDelta ⟨(1/2, 5), (0, 0)⟩ = ((1/2 : ℚ), (5 : ℚ)) := by
    simp [targetDelta]
  have hc1 : clampScrollDistance ((1 : ℚ)/2 - 0) 5 = 1/2 := by
    unfold clampScrollDistance
    rw [if_pos (by norm_num)]
    rw [max_eq_left (by norm_num), min_eq_right (by norm_num)]
    norm_num
  have hc2 : clampScrollDistance ((5 : ℚ) - 0) 2 = 2 := by
    unfold clampScrollDistance
    rw [if_pos (by norm_num)]
    rw [max_eq_left (by norm_num), min_eq_left (by norm_num)]
  have hep : (UpdateSmoothscroll ⟨(1/2, 5), (0, 0)⟩ (5, 2) true).emitted
      = (clampScrollDistance ((1 : ℚ)/2 - 0) 5, clampScrollDistance ((5 : ℚ) - 0) 2) := rfl
  have hemit : (UpdateSmoothscroll ⟨(1/2, 5), (0, 0)⟩ (5, 2) true).emitted
      = ((1/2 : ℚ), (2 : ℚ)) := by rw [hep, hc1, hc2]
  refine ⟨by rw [htd]; norm_num, ?_, ?_, ?_⟩
  · have h1 : (UpdateSmoothscroll ⟨(1/2, 5), (0, 0)⟩ (5, 2) true).emitted.1 = 1/2 := by
      rw [hemit]
    rw [h1]
    norm_num
  · have hr : (UpdateSmoothscroll ⟨(1/2, 5), (0, 0)⟩ (5, 2) true).did_reset
        = (((!decide (((clampScrollDistance ((1 : ℚ)/2 - 0) 5,
              clampScrollDistance ((5 : ℚ) - 0) 2) : ℚ × ℚ) = (0, 0)))
            && true)
          || decide ((clampScrollDistance ((1 : ℚ)/2 - 0) 5,
              clampScrollDistance ((5 : ℚ) - 0) 2)
              = targetDelta ⟨(1/2, 5), (0, 0)⟩)) := rfl
    rw [hr, hc1, hc2, Bool.and_true, htd]
    rw [decide_eq_false (by norm_num [Prod.ext_iff]), Bool.not_false]
    rw [decide_eq_false (by norm_num [Prod.ext_iff]), Bool.or_false]
  · rw [hemit, htd]
    norm_num [Prod.ext_iff]

theorem autoscrollVelocityAxis_spec (x dp : ℚ) (hdp : 0 < dp) :
    (AUTOSCROLL_SPEED_FACTOR * (if |x / dp| < AUTOSCROLL_DEADZONE then 0 else x / dp)
        * |if |x / dp| < AUTOSCROLL_DEADZONE then 0 else x / dp| = 0
      ↔ |x / dp| < AUTOSCROLL_DEADZONE)
    ∧ (AUTOSCROLL_DEADZONE ≤ |x / dp| →
        (0 < x →
          0 < AUTOSCROLL_SPEED_FACTOR
              * (if |x / dp| < AUTOSCROLL_DEADZONE then 0 else x / dp)
              * |if |x / dp| < AUTOSCROLL_DEADZONE then 0 else x / dp|)
        ∧ (x < 0 →
          AUTOSCROLL_SPEED_FACTOR
              * (if |x / dp| < AUTOSCROLL_DEADZONE then 0 else x / dp)
              * |if |x / dp| < AUTOSCROLL_DEADZONE then 0 else x / dp| < 0)) := by
  have hc : (0 : ℚ) < AUTOSCROLL_SPEED_FACTOR := by
    norm_num [AUTOSCROLL_SPEED_FACTOR]
  by_cases hdz : |x / dp| < AUTOSCROLL_DEADZONE
  · rw [if_pos hdz]
    refine ⟨by simpa using hdz, fun hge => absurd hdz (not_lt.mpr hge)⟩
  · rw [if_neg hdz]
    have hge : AUTOSCROLL_DEADZONE ≤ |x / dp| := not_lt.mp hdz
    have htne : x / dp ≠ 0 := by
      intro h0
      rw [h0] at hge
      norm_num [AUTOSCROLL_DEADZONE] at hge
    constructor
    · constructor
      · intro h0
        exact absurd h0
          (mul_ne_zero (mul_ne_zero (ne_of_gt hc) htne) (abs_ne_zero.mpr htne))
      · intro hlt
        exact absurd hlt hdz
    · intro _
      constructor
      · intro hx
        have ht : 0 < x / dp := div_pos hx hdp
        exact mul_pos (mul_pos hc ht) (abs_pos.mpr htne)
      · intro hx
        have ht : x / dp < 0 := div_neg_of_neg_of_pos hx hdp
        exact mul_neg_of_neg_of_pos (mul_neg_of_pos_of_neg hc ht) (abs_pos.mpr htne)

/-- C10: each component of CalculateAutoscrollVelocity is exactly 0 when
the corresponding component of target_delta / dp_ratio lies inside the 10dp
deadzone — and only then — and otherwise has the same sign as that
component of target_delta; consequently GetAutoscrollCursor returns
"rmlui-scroll-idle" exactly when both components of the mouse offset from
the autoscroll start position are, after dp scaling, inside the deadzone. -/
theorem CalculateAutoscrollVelocity_deadzone_and_idle_cursor
    (target_delta : ℚ × ℚ) (mouse_position autoscroll_start_position : ℤ × ℤ)
    (dp_ratio : ℚ) (hdp : 0 < dp_ratio) :
    ((CalculateAutoscrollVelocity target_delta dp_ratio).1 = 0
        ↔ |target_delta.1 / dp_ratio| < AUTOSCROLL_DEADZONE)
    ∧ ((CalculateAutoscrollVelocity target_delta dp_ratio).2 = 0
        ↔ |target_delta.2 / dp_ratio| < AUTOSCROLL_DEADZONE)
    ∧ (AUTOSCROLL_DEADZONE ≤ |target_delta.1 / dp_ratio| →
        (0 < target_delta.1 → 0 < (CalculateAutoscrollVelocity target_delta dp_ratio).1)
        ∧ (target_delta.1 < 0 → (CalculateAutoscrollVelocity target_delta dp_ratio).1 < 0))
    ∧ (AUTOSCROLL_DEADZONE ≤ |target_delta.2 / dp_ratio| →
        (0 < target_delta.2 → 0 < (CalculateAutoscrollVelocity target_delta dp_ratio).2)
        ∧ (target_delta.2 < 0 → (CalculateAutoscrollVelocity target_delta dp_ratio).2 < 0))
    ∧ (GetAutoscrollCursor mouse_position autoscroll_start_position dp_ratio
          = "rmlui-scroll-idle"
        ↔ |((mouse_position.1 - autoscroll_start_position.1 : ℤ) : ℚ) / dp_ratio|
              < AUTOSCROLL_DEADZONE
          ∧ |((mouse_position.2 - autoscroll_start_position.2 : ℤ) : ℚ) / dp_ratio|
              < AUTOSCROLL_DEADZONE) := by
  have hcomp : ∀ td : ℚ × ℚ,
      (CalculateAutoscrollVelocity td dp_ratio).1
        = AUTOSCROLL_SPEED_FACTOR
            * (if |td.1 / dp_ratio| < AUTOSCROLL_DEADZONE then 0 else td.1 / dp_ratio)
            * |if |td.1 / dp_ratio| < AUTOSCROLL_DEADZONE then 0 else td.1 / dp_ratio| :=
    fun td => rfl
  have hcomp2 : ∀ td : ℚ × ℚ,
      (CalculateAutoscrollVelocity td dp_ratio).2
        = AUTOSCROLL_SPEED_FACTOR
            * (if |td.2 / dp_ratio| < AUTOSCROLL_DEADZONE then 0 else td.2 / dp_ratio)
            * |if |td.2 / dp_ratio| < AUTOSCROLL_DEADZONE then 0 else td.2 / dp_ratio| :=
    fun td => rfl
  have h1 := autoscrollVelocityAxis_spec target_delta.1 dp_ratio hdp
  have h2 := autoscrollVelocityAxis_spec target_delta.2 dp_ratio hdp
  refine ⟨by rw [hcomp]; exact h1.1, by rw [hcomp2]; exact h2.1,
    by rw [hcomp]; exact h1.2, by rw [hcomp2]; exact h2.2, ?_⟩
  have hidle : GetAutoscrollCursor mouse_position autoscroll_start_position dp_ratio
      = "rmlui-scroll-idle"
      ↔ CalculateAutoscrollVelocity
          (((mouse_position.1 - autoscroll_start_position.1 : ℤ) : ℚ),
           ((mouse_position.2 - autoscroll_start_position.2 : ℤ) : ℚ)) dp_ratio
        = (0, 0) := by
    simp only [GetAutoscrollCursor]
    by_cases hv : CalculateAutoscrollVelocity
        (((mouse_position.1 - autoscroll_start_position.1 : ℤ) : ℚ),
         ((mouse_position.2 - autoscroll_start_position.2 : ℤ) : ℚ)) dp_ratio
        = (0, 0)
    · rw [if_pos hv]
      exact iff_of_true rfl hv
    · rw [if_neg hv]
      refine iff_of_false ?_ hv
      split_ifs <;> decide
  rw [hidle, Prod.ext_iff]
  have ha := (autoscrollVelocityAxis_spec
    ((mouse_position.1 - autoscroll_start_position.1 : ℤ) : ℚ) dp_ratio hdp).1
  have hb := (autoscrollVelocityAxis_spec
    ((mouse_position.2 - autoscroll_start_position.2 : ℤ) : ℚ) dp_ratio hdp).1
  exact and_congr (by rw [hcomp]; exact ha) (by rw [hcomp2]; exact hb)

theorem CalculateAutoscrollVelocity_deadzone_and_idle_cursor_witness :
    (CalculateAutoscrollVelocity ((3 : ℚ), (0 : ℚ)) 1).1 = 0
      ↔ |((3 : ℚ), (0 : ℚ)).1 / 1| < AUTOSCROLL_DEADZONE :=
  (CalculateAutoscrollVelocity_deadzone_and_idle_cursor ((3 : ℚ), (0 : ℚ))
    (0, 0) (0, 0) 1 one_pos).1

end RmlUi
